import Mathlib

/-!
Verification of the UniMatchAI browser client (src/frontend/app.js and the
chatbot variant src/unnamed/part_000, whose selection / validation /
payload logic is identical).  The development is a shallow embedding:

* DOM form fields are modelled as a map from element id to the element's
  raw string value (`none` = element absent from the page);
* JavaScript values returned by the field accessor `val` are modelled by
  `JsValue` (a number, a string, or `undefined`); JS numbers are modelled
  by rationals, which is exact for every arithmetic operation the code
  performs on in-range decimal inputs (clamping, `Math.round`);
* the selection store `SELECTION_PAIRS` is modelled by `SelectionState`;
* the knowledge base fetched at startup is modelled by `KnowledgeBase`.
-/

namespace UniMatch

/-- JS values produced by the field accessor `val`:
a number, a string, or `undefined`. -/
inductive JsValue where
  | num (q : ℚ)
  | str (s : String)
  | undef
  deriving DecidableEq, Repr

/-- JS truthiness of a `JsValue` (`0`, `""` and `undefined` are falsy). -/
def JsValue.truthyVal : JsValue → Bool
  | .num q => !(q == 0)
  | .str s => !s.isEmpty
  | .undef => false

/-- `GRADE_FIELDS` from app.js line 4. -/
def GRADE_FIELDS : List String :=
  ["s1", "s2", "s3", "s4", "s5",
   "math", "language", "physics", "chemistry", "biology",
   "economics", "geography", "history"]

/-- `NUMERIC_FIELDS` from app.js line 9. -/
def NUMERIC_FIELDS : List String := GRADE_FIELDS ++ ["rank_percentile"]

/-- Digit run to its natural-number value (used to model decimal parsing). -/
def digitsToNat (l : List Char) : Nat :=
  l.foldl (fun n c => 10 * n + (c.toNat - 48)) 0

/-- Model of JS `Number(raw)` on an unsigned decimal literal
`digits [. digits]` (at least one digit in total); `none` models `NaN`. -/
def parseUnsigned (l : List Char) : Option ℚ :=
  let ip := l.takeWhile Char.isDigit
  let rest := l.dropWhile Char.isDigit
  match rest with
  | [] => if ip.isEmpty then none else some (digitsToNat ip)
  | '.' :: fp =>
      if fp.all Char.isDigit && !(ip.isEmpty && fp.isEmpty) then
        some (mkRat (digitsToNat ip * 10 ^ fp.length + digitsToNat fp) (10 ^ fp.length))
      else none
  | _ => none

/-- Model of JS `Number(raw)` on an already-trimmed string: an optional
sign followed by a decimal literal.  `none` models `NaN`. -/
def parseNum (s : String) : Option ℚ :=
  match s.data with
  | '-' :: rest => (parseUnsigned rest).map (fun q => -q)
  | '+' :: rest => parseUnsigned rest
  | l => parseUnsigned l

/-- JS `Math.min` on two (non-`NaN`) numbers. -/
def jsMin (a b : ℚ) : ℚ := if a ≤ b then a else b

/-- JS `Math.max` on two (non-`NaN`) numbers. -/
def jsMax (a b : ℚ) : ℚ := if a ≤ b then b else a

/-- `clamp(n,min,max)` from app.js line 12 (the `NaN` guard never fires at
the call sites, which are reached only when `Number(raw)` is not `NaN`). -/
def clampQ (n mn mx : ℚ) : ℚ := jsMax mn (jsMin mx n)

/-- JS `Math.round` (half-up, toward positive infinity) on a rational,
written with integer euclidean division so that it evaluates in the
kernel; `jsRound_eq_floor` below shows it equals `⌊q + 1/2⌋`. -/
def jsRound (q : ℚ) : ℤ := (2 * q.num + q.den) / (2 * (q.den : ℤ))

/-- Model of JS `String.prototype.trim`: strip leading and trailing
whitespace characters. -/
def jsTrim (s : String) : String :=
  String.mk (((s.data.dropWhile Char.isWhitespace).reverse.dropWhile
    Char.isWhitespace).reverse)

/-- A form snapshot: element id to the element's raw string value;
`none` models an absent element. -/
def Form := String → Option String

/-- The field accessor `val(id)` from app.js lines 14-24. -/
def val (form : Form) (id : String) : JsValue :=
  match form id with
  | none => .undef
  | some v =>
    let raw := jsTrim v
    if raw = "" then .undef
    else
      match parseNum raw with
      | some n =>
        if NUMERIC_FIELDS.contains id then
          let n1 := if GRADE_FIELDS.contains id then clampQ n 0 100 else n
          let n2 := if id = "rank_percentile" then clampQ (jsRound n1 : ℚ) 1 100 else n1
          .num n2
        else .str raw
      | none => .str raw

/-- `typeof val(k) === "number"`. -/
def JsValue.isNum : JsValue → Bool
  | .num _ => true
  | _ => false

/-- `atLeastOneGradeFilled()` from app.js lines 26-28. -/
def atLeastOneGradeFilled (form : Form) : Bool :=
  (GRADE_FIELDS.take 5).any (fun k => (val form k).isNum)

/-! ## The selection store (`SELECTION_PAIRS`, app.js lines 35-48) -/

/-- The three choice slots, in `Object.keys(SELECTION_PAIRS)` order. -/
inductive ChoiceKey where
  | choice1
  | choice2
  | choice3
  deriving DecidableEq, Repr, Fintype

/-- `Object.keys(SELECTION_PAIRS)`, in insertion order. -/
def keys : List ChoiceKey := [.choice1, .choice2, .choice3]

/-- The `forEach` index of each key (`choice1 ↦ 0`, ...). -/
def ChoiceKey.idx : ChoiceKey → Nat
  | .choice1 => 0
  | .choice2 => 1
  | .choice3 => 2

/-- The selection kind: the `type` argument `'university' | 'major'`. -/
inductive SelKind where
  | university
  | major
  deriving DecidableEq, Repr, Fintype

/-- State of one `(university, major)` pair of `SELECTION_PAIRS`:
`univSelected` models `pair.university.selected` (`none` = JS `null`),
`majorSelected` models `pair.major.selected`, and `majorDisabled` models
`pair.major.disabled`.  The DOM handles (`input`, `dropdown`, ...) carry
no selection state and are not modelled. -/
structure PairState where
  univSelected : Option String
  majorSelected : Option String
  majorDisabled : Bool
  deriving DecidableEq, Repr

/-- The whole selection store `SELECTION_PAIRS`. -/
structure SelectionState where
  choice1 : PairState
  choice2 : PairState
  choice3 : PairState
  deriving DecidableEq, Repr

def SelectionState.get (st : SelectionState) : ChoiceKey → PairState
  | .choice1 => st.choice1
  | .choice2 => st.choice2
  | .choice3 => st.choice3

def SelectionState.set (st : SelectionState) : ChoiceKey → PairState → SelectionState
  | .choice1, p => { st with choice1 := p }
  | .choice2, p => { st with choice2 := p }
  | .choice3, p => { st with choice3 := p }

/-- The initial state of one pair (app.js lines 36-38): nothing selected,
major disabled (`disabled: true`, and `initSingleSelector` calls
`setMajorDisabled(choiceKey, true)` again at startup). -/
def initPair : PairState :=
  { univSelected := none, majorSelected := none, majorDisabled := true }

/-- The initial selection store. -/
def initState : SelectionState := ⟨initPair, initPair, initPair⟩

/-- JS truthiness of a `selected` value (`null` and `""` are falsy). -/
def truthy : Option String → Bool
  | none => false
  | some s => !s.isEmpty

/-- JS `x || null` on a string-or-null value. -/
def jsOrNull (o : Option String) : Option String := if truthy o then o else none

/-- `getSelectedUniversities()` from app.js lines 108-116: walk the slots
in key order and push every truthy `university.selected`. -/
def getSelectedUniversities (st : SelectionState) : List String :=
  keys.filterMap (fun k => jsOrNull (st.get k).univSelected)

/-- `getSelectedMajors()` from app.js lines 118-126. -/
def getSelectedMajors (st : SelectionState) : List String :=
  keys.filterMap (fun k => jsOrNull (st.get k).majorSelected)

/-- The `alreadySelected` set built in `getAvailableUniversities`
(app.js lines 129-136): truthy university selections of slots other than
`cur`, as a list (only membership is used). -/
def othersSelectedUnivs (st : SelectionState) (cur : ChoiceKey) : List String :=
  (keys.filter (fun k => k != cur)).filterMap (fun k => jsOrNull (st.get k).univSelected)

/-- The `alreadySelectedMajors` set built in `getAvailableMajorsForChoice`
(app.js lines 145-152). -/
def othersSelectedMajors (st : SelectionState) (cur : ChoiceKey) : List String :=
  (keys.filter (fun k => k != cur)).filterMap (fun k => jsOrNull (st.get k).majorSelected)

/-! ## The knowledge-base snapshot -/

/-- The knowledge base fetched once at startup: `UNIVERSITIES_DATA.all`,
`MAJORS_DATA.all` and the key set of `MAJORS_DATA.details` (the only part
of `details` the selection logic reads is whether a key is present). -/
structure KnowledgeBase where
  universities : List String
  majors : List String
  detailKeys : List String
  deriving DecidableEq, Repr

/-- The `"Universitas | Major"` key format (app.js line 103). -/
def detailKey (universityName m : String) : String :=
  universityName ++ " | " ++ m

/-- `getMajorsForUniversity(universityName)` from app.js lines 93-106:
empty for a falsy name, else all majors whose detail key exists.
The caller passes the slot's (non-null) selected university. -/
def getMajorsForUniversity (kb : KnowledgeBase) (universityName : String) : List String :=
  if universityName = "" then []
  else kb.majors.filter (fun m => decide (detailKey universityName m ∈ kb.detailKeys))

/-- `getAvailableUniversities(currentKey)` from app.js lines 128-139:
all knowledge-base universities not selected in the *other* slots
(`Set.has` is string-equality membership). -/
def getAvailableUniversities (kb : KnowledgeBase) (st : SelectionState)
    (cur : ChoiceKey) : List String :=
  kb.universities.filter (fun u => decide (u ∉ othersSelectedUnivs st cur))

/-- `getAvailableMajorsForChoice(choiceKey)` from app.js lines 141-157:
empty when the slot's `university.selected` is falsy, else the majors of
that university minus majors selected in other slots. -/
def getAvailableMajorsForChoice (kb : KnowledgeBase) (st : SelectionState)
    (cur : ChoiceKey) : List String :=
  match (st.get cur).univSelected with
  | none => []
  | some u =>
    if u = "" then []
    else (getMajorsForUniversity kb u).filter
      (fun m => decide (m ∉ othersSelectedMajors st cur))

/-! ## Selection operations (app.js lines 183-219, 602-620) -/

/-- `setMajorDisabled(choiceKey, disabled)` from app.js lines 209-219
(the placeholder/CSS effects are not selection state). -/
def setMajorDisabled (st : SelectionState) (k : ChoiceKey) (disabled : Bool) :
    SelectionState :=
  st.set k { st.get k with majorDisabled := disabled }

/-- `clearSelection(choiceKey, type)` from app.js lines 183-194: null the
`selected` value; for a university additionally run the recursive
`clearSelection(choiceKey, 'major')` and `setMajorDisabled(choiceKey, true)`
(inlined here). -/
def clearSelection (st : SelectionState) (k : ChoiceKey) : SelKind → SelectionState
  | .major => st.set k { st.get k with majorSelected := none }
  | .university =>
      st.set k { st.get k with univSelected := none, majorSelected := none,
                               majorDisabled := true }

/-- `selectItem(choiceKey, type, item)` from app.js lines 196-207: set the
`selected` value; for a university additionally run
`clearSelection(choiceKey, 'major')` and `setMajorDisabled(choiceKey, false)`
(inlined here). -/
def selectItem (st : SelectionState) (k : ChoiceKey) : SelKind → String → SelectionState
  | .major, item => st.set k { st.get k with majorSelected := some item }
  | .university, item =>
      st.set k { st.get k with univSelected := some item, majorSelected := none,
                               majorDisabled := false }

/-- One slot's part of the `resetBtn` click handler (app.js lines 611-615):
`clearSelection(k,'university'); clearSelection(k,'major');
setMajorDisabled(k,true)`. -/
def resetSlot (st : SelectionState) (k : ChoiceKey) : SelectionState :=
  setMajorDisabled (clearSelection (clearSelection st k .university) k .major) k true

/-- The selection part of the `resetBtn` click handler: reset every slot in
key order. -/
def resetSelections (st : SelectionState) : SelectionState :=
  resetSlot (resetSlot (resetSlot st .choice1) .choice2) .choice3

/-! ## Availability and search -/

/-- The list of options the UI offers for a slot and kind: both
`showAllOptions` (app.js lines 221-237) and `renderSearchResults`
(app.js lines 267-273) compute it this way — universities via
`getAvailableUniversities`, majors via `getAvailableMajorsForChoice`
guarded by an early return when the major selector is disabled. -/
def availableFor (kb : KnowledgeBase) (st : SelectionState) (k : ChoiceKey) :
    SelKind → List String
  | .university => getAvailableUniversities kb st k
  | .major =>
      if (st.get k).majorDisabled then []
      else getAvailableMajorsForChoice kb st k

/-- Model of JS `String.prototype.toLowerCase`. -/
def jsToLower (s : String) : String := String.mk (s.data.map Char.toLower)

/-- Model of JS `String.prototype.includes`: `sIncludesAux pat l` is true
iff `pat` occurs contiguously in `l`. -/
def sIncludesAux (pat : List Char) : List Char → Bool
  | [] => pat.isEmpty
  | c :: t => pat.isPrefixOf (c :: t) || sIncludesAux pat t

/-- JS `s.includes(pat)`. -/
def jsIncludes (s pat : String) : Bool := sIncludesAux pat.data s.data

/-- The result list of `renderSearchResults(choiceKey, type, query)` from
app.js lines 259-303: nothing for an empty query (the dropdown is hidden),
else the case-insensitive substring matches of the available options,
capped at 12 (`.filter(...).slice(0, 12)`). -/
def renderSearchResults (kb : KnowledgeBase) (st : SelectionState) (k : ChoiceKey)
    (kind : SelKind) (query : String) : List String :=
  if query = "" then []
  else
    ((availableFor kb st k kind).filter
      (fun item => jsIncludes (jsToLower item) (jsToLower query))).take 12

/-! ## Payload assembly (app.js lines 405-430) -/

/-- The page state the predict button reads: the form fields and the
selection store. -/
structure FormModel where
  form : Form
  sel : SelectionState

/-- JS `x || "Unknown"` on `selectedUniversities[0]` /
`selectedMajors[0]`: head of the list if present (falsy `undefined` when
the list is empty; list elements are truthy by construction). -/
def headOrUnknown (l : List String) : String :=
  match l with
  | [] => "Unknown"
  | s :: _ => if s.isEmpty then "Unknown" else s

/-- The request body built by `collectPayload()` (app.js lines 405-430). -/
structure Payload where
  program : JsValue
  target_university : String
  target_universities : List String
  target_university_1 : Option String
  target_university_2 : Option String
  target_university_3 : Option String
  target_major : String
  target_majors : List String
  target_major_1 : Option String
  target_major_2 : Option String
  target_major_3 : Option String
  competitiveness : JsValue
  s1 : JsValue
  s2 : JsValue
  s3 : JsValue
  s4 : JsValue
  s5 : JsValue
  math : JsValue
  language : JsValue
  physics : JsValue
  chemistry : JsValue
  biology : JsValue
  economics : JsValue
  geography : JsValue
  history : JsValue
  rank_percentile : JsValue
  achievement : JsValue
  accreditation : JsValue
  deriving DecidableEq, Repr

/-- `collectPayload()` from app.js lines 405-430.  `?? 100` is JS nullish
coalescing: `val` only ever yields `undefined` for missing input, so the
default fires exactly on `.undef`. -/
def collectPayload (fm : FormModel) : Payload :=
  let selectedUniversities := getSelectedUniversities fm.sel
  let selectedMajors := getSelectedMajors fm.sel
  { program := val fm.form "program"
    target_university := headOrUnknown selectedUniversities
    target_universities := selectedUniversities
    target_university_1 := jsOrNull fm.sel.choice1.univSelected
    target_university_2 := jsOrNull fm.sel.choice2.univSelected
    target_university_3 := jsOrNull fm.sel.choice3.univSelected
    target_major := headOrUnknown selectedMajors
    target_majors := selectedMajors
    target_major_1 := jsOrNull fm.sel.choice1.majorSelected
    target_major_2 := jsOrNull fm.sel.choice2.majorSelected
    target_major_3 := jsOrNull fm.sel.choice3.majorSelected
    competitiveness := val fm.form "competitiveness"
    s1 := val fm.form "s1"
    s2 := val fm.form "s2"
    s3 := val fm.form "s3"
    s4 := val fm.form "s4"
    s5 := val fm.form "s5"
    math := val fm.form "math"
    language := val fm.form "language"
    physics := val fm.form "physics"
    chemistry := val fm.form "chemistry"
    biology := val fm.form "biology"
    economics := val fm.form "economics"
    geography := val fm.form "geography"
    history := val fm.form "history"
    rank_percentile :=
      match val fm.form "rank_percentile" with
      | .undef => .num 100
      | v => v
    achievement := val fm.form "achievement"
    accreditation := val fm.form "accreditation" }

/-! ## Validation (app.js lines 504-553) -/

/-- The message pushed for a slot with a university but no major
(app.js line 530). -/
def missingMajorMsg (k : ChoiceKey) (universityName : String) : String :=
  "Please select a major for Choice " ++ toString (k.idx + 1) ++
    " (" ++ universityName ++ ")"

/-- The per-slot pairing check of `validateForm` (app.js lines 525-532). -/
def slotPairIssue (st : SelectionState) (k : ChoiceKey) : List String :=
  let p := st.get k
  if truthy p.univSelected && !truthy p.majorSelected then
    [missingMajorMsg k (p.univSelected.getD "")]
  else []

def gradeMsg : String := "Please fill at least one of S1—S5 grades"

def univMsg : String := "Please select at least one target university"

def majorMsg : String := "Please select at least one target major"

def mathMsg : String := "Math grade is highly recommended for Saintek program"

def scienceMsg : String :=
  "At least one science subject (Physics/Chemistry/Biology) is recommended"

def languageMsg : String := "Language grade is highly recommended for Soshum program"

/-- `validateForm()` from app.js lines 504-553, as the ordered issue list
it returns.  Every rule is evaluated; conditions use JS truthiness
(`!val(...)`). -/
def validateForm (fm : FormModel) : List String :=
  let selectedUniversities := getSelectedUniversities fm.sel
  let selectedMajors := getSelectedMajors fm.sel
  let program := val fm.form "program"
  (if !atLeastOneGradeFilled fm.form then [gradeMsg] else []) ++
  (if selectedUniversities.length = 0 then [univMsg] else []) ++
  (if selectedMajors.length = 0 then [majorMsg] else []) ++
  (keys.map (slotPairIssue fm.sel)).flatten ++
  (if program = .str "saintek" && selectedMajors.length > 0 then
     (if !(val fm.form "math").truthyVal then [mathMsg] else []) ++
     (if !(val fm.form "physics").truthyVal && !(val fm.form "chemistry").truthyVal
         && !(val fm.form "biology").truthyVal then [scienceMsg] else [])
   else []) ++
  (if program = .str "soshum" && selectedMajors.length > 0 then
     (if !(val fm.form "language").truthyVal then [languageMsg] else [])
   else [])

/-- Outcome of one click of the predict button (app.js lines 556-600) up
to the first network interaction: either blocked by validation (the
issue list is rendered via `renderResult({error: issues})` and the
handler returns before any `fetch`), or submitted (a POST of the
assembled payload to `/api/predict` is issued). -/
inductive PredictOutcome where
  | blocked (issues : List String)
  | submitted (payload : Payload)
  deriving DecidableEq, Repr

/-- The predict-button click handler (app.js lines 556-600): validate,
block on a non-empty issue list, otherwise collect the payload and
submit.  The page state (form fields and selection store) is returned
unchanged in both branches: the handler mutates neither. -/
def predictClick (fm : FormModel) : PredictOutcome × FormModel :=
  let issues := validateForm fm
  if issues.length > 0 then (.blocked issues, fm)
  else (.submitted (collectPayload fm), fm)

/-! ## Reachable selection-store states

The UI only ever mutates the selection store through `selectItem`,
`clearSelection` and the reset handler, and `selectItem` is only invoked
from dropdown options, which are drawn from `availableFor` (either the
full list in `showAllOptions` or a filtered sublist in
`renderSearchResults`; the `Enter` key dispatches the first rendered
option).  `Step` captures exactly these transitions. -/
inductive Step (kb : KnowledgeBase) : SelectionState → SelectionState → Prop where
  | select (st : SelectionState) (k : ChoiceKey) (kind : SelKind) (v : String)
      (hv : v ∈ availableFor kb st k kind) :
      Step kb st (selectItem st k kind v)
  | clear (st : SelectionState) (k : ChoiceKey) (kind : SelKind) :
      Step kb st (clearSelection st k kind)
  | reset (st : SelectionState) :
      Step kb st (resetSelections st)

/-- States of the selection store reachable from the initial empty store. -/
inductive Reachable (kb : KnowledgeBase) : SelectionState → Prop where
  | init : Reachable kb initState
  | step {st st' : SelectionState} :
      Reachable kb st → Step kb st st' → Reachable kb st'

/-! ## Basic lemmas about the store -/

theorem mem_keys (k : ChoiceKey) : k ∈ keys := by cases k <;> simp [keys]

theorem keys_nodup : keys.Nodup := by decide

theorem get_set (st : SelectionState) (k : ChoiceKey) (p : PairState) (a : ChoiceKey) :
    (st.set k p).get a = if a = k then p else st.get a := by
  cases k <;> cases a <;>
    simp [SelectionState.set, SelectionState.get]

theorem truthy_some_eq (s : String) : truthy (some s) = decide (s ≠ "") := by
  by_cases hs : s = ""
  · subst hs
    rfl
  · have h1 : s.isEmpty = false :=
      Bool.eq_false_iff.mpr (fun hc => hs ((String.isEmpty_iff s).mp hc))
    simp [truthy, h1, hs]

theorem truthy_some {s : String} : truthy (some s) = true ↔ s ≠ "" := by
  simp [truthy_some_eq]

theorem truthy_eq_true_iff {o : Option String} :
    truthy o = true ↔ ∃ s, o = some s ∧ s ≠ "" := by
  cases o with
  | none => simp [truthy]
  | some s => simp [truthy_some]

theorem jsOrNull_eq_some {o : Option String} {v : String} :
    jsOrNull o = some v ↔ o = some v ∧ v ≠ "" := by
  cases o with
  | none => simp [jsOrNull, truthy]
  | some s =>
    rw [jsOrNull, truthy_some_eq]
    by_cases hs : s = ""
    · subst hs
      simp
      exact fun h => h.symm
    · have hd : decide (s ≠ "") = true := by simp [hs]
      rw [if_pos hd]
      constructor
      · intro h
        refine ⟨h, ?_⟩
        injection h with h
        exact h ▸ hs
      · exact fun h => h.1

theorem jsOrNull_none {o : Option String} (h : o = none) : jsOrNull o = none := by
  simp [h, jsOrNull, truthy]

theorem mem_othersSelectedUnivs {st : SelectionState} {cur : ChoiceKey} {v : String} :
    v ∈ othersSelectedUnivs st cur ↔
      ∃ k, k ≠ cur ∧ jsOrNull (st.get k).univSelected = some v := by
  simp only [othersSelectedUnivs, List.mem_filterMap, List.mem_filter]
  constructor
  · rintro ⟨k, ⟨_, hk⟩, hv⟩
    exact ⟨k, by simpa using hk, hv⟩
  · rintro ⟨k, hk, hv⟩
    exact ⟨k, ⟨mem_keys k, by simpa using hk⟩, hv⟩

theorem mem_othersSelectedMajors {st : SelectionState} {cur : ChoiceKey} {v : String} :
    v ∈ othersSelectedMajors st cur ↔
      ∃ k, k ≠ cur ∧ jsOrNull (st.get k).majorSelected = some v := by
  simp only [othersSelectedMajors, List.mem_filterMap, List.mem_filter]
  constructor
  · rintro ⟨k, ⟨_, hk⟩, hv⟩
    exact ⟨k, by simpa using hk, hv⟩
  · rintro ⟨k, hk, hv⟩
    exact ⟨k, ⟨mem_keys k, by simpa using hk⟩, hv⟩

theorem mem_getAvailableUniversities {kb : KnowledgeBase} {st : SelectionState}
    {cur : ChoiceKey} {v : String} :
    v ∈ getAvailableUniversities kb st cur ↔
      v ∈ kb.universities ∧ v ∉ othersSelectedUnivs st cur := by
  simp [getAvailableUniversities, List.mem_filter]

theorem mem_getMajorsForUniversity {kb : KnowledgeBase} {u v : String} :
    v ∈ getMajorsForUniversity kb u →
      v ∈ kb.majors ∧ detailKey u v ∈ kb.detailKeys := by
  unfold getMajorsForUniversity
  split
  · simp
  · intro h
    simpa [List.mem_filter] using h

theorem mem_getAvailableMajorsForChoice {kb : KnowledgeBase} {st : SelectionState}
    {cur : ChoiceKey} {v : String} :
    v ∈ getAvailableMajorsForChoice kb st cur →
      (∃ u, (st.get cur).univSelected = some u ∧ u ≠ "") ∧
        v ∈ kb.majors ∧ v ∉ othersSelectedMajors st cur := by
  unfold getAvailableMajorsForChoice
  cases hu : (st.get cur).univSelected with
  | none => simp
  | some u =>
    by_cases h0 : u = ""
    · simp [h0]
    · simp only [h0, if_false, List.mem_filter]
      intro ⟨h1, h2⟩
      exact ⟨⟨u, rfl, h0⟩, (mem_getMajorsForUniversity h1).1, by simpa using h2⟩

theorem resetSelections_eq (st : SelectionState) : resetSelections st = initState := by
  cases st
  rfl

theorem get_initState (a : ChoiceKey) : initState.get a = initPair := by
  cases a <;> rfl

/-! ## Store invariants -/

/-- Per-slot invariant: the major selector is disabled exactly when the
slot's university selection is falsy, the university selection is never
the (truthy-breaking) empty string, and a slot without a university has
no major. -/
def SlotInv (p : PairState) : Prop :=
  p.majorDisabled = !truthy p.univSelected ∧
  p.univSelected ≠ some "" ∧
  (p.univSelected = none → p.majorSelected = none)

/-- No two distinct slots hold the same truthy university selection. -/
def UnivDistinct (st : SelectionState) : Prop :=
  ∀ k k' : ChoiceKey, k ≠ k' → ∀ v,
    jsOrNull (st.get k).univSelected = some v →
    jsOrNull (st.get k').univSelected ≠ some v

/-- No two distinct slots hold the same truthy major selection. -/
def MajorDistinct (st : SelectionState) : Prop :=
  ∀ k k' : ChoiceKey, k ≠ k' → ∀ v,
    jsOrNull (st.get k).majorSelected = some v →
    jsOrNull (st.get k').majorSelected ≠ some v

theorem distinct_update {f : PairState → Option String} {st : SelectionState}
    {k : ChoiceKey} {p : PairState}
    (hd : ∀ a b, a ≠ b → ∀ v, jsOrNull (f (st.get a)) = some v →
      jsOrNull (f (st.get b)) ≠ some v)
    (hnew : ∀ b, b ≠ k → ∀ v, jsOrNull (f p) = some v →
      jsOrNull (f (st.get b)) ≠ some v) :
    ∀ a b, a ≠ b → ∀ v, jsOrNull (f ((st.set k p).get a)) = some v →
      jsOrNull (f ((st.set k p).get b)) ≠ some v := by
  intro a b hab v ha hb
  rw [get_set] at ha hb
  by_cases hak : a = k <;> by_cases hbk : b = k
  · exact hab (hak.trans hbk.symm)
  · rw [if_pos hak] at ha
    rw [if_neg hbk] at hb
    exact hnew b hbk v ha hb
  · rw [if_neg hak] at ha
    rw [if_pos hbk] at hb
    exact hnew a hak v hb ha
  · rw [if_neg hak] at ha
    rw [if_neg hbk] at hb
    exact hd a b hab v ha hb

theorem univDistinct_init : UnivDistinct initState := by
  intro a b _ v ha
  rw [get_initState] at ha
  simp [initPair, jsOrNull, truthy] at ha

theorem majorDistinct_init : MajorDistinct initState := by
  intro a b _ v ha
  rw [get_initState] at ha
  simp [initPair, jsOrNull, truthy] at ha

theorem slotInv_init (a : ChoiceKey) : SlotInv (initState.get a) := by
  rw [get_initState]
  exact ⟨rfl, by simp [initPair], fun _ => rfl⟩

theorem step_univDistinct {kb : KnowledgeBase} {st st' : SelectionState}
    (hs : Step kb st st') (h : UnivDistinct st) : UnivDistinct st' := by
  cases hs with
  | select k kind v hv =>
    cases kind with
    | university =>
      have hmem := mem_getAvailableUniversities.mp (by simpa [availableFor] using hv)
      simp only [selectItem]
      apply distinct_update h
      intro b hbk w hw hwb
      rw [jsOrNull_eq_some] at hw
      obtain ⟨hw1, _⟩ := hw
      injection hw1 with hw1
      subst hw1
      exact hmem.2 (mem_othersSelectedUnivs.mpr ⟨b, hbk, hwb⟩)
    | major =>
      simp only [selectItem]
      apply distinct_update h
      intro b hbk w hw hwb
      exact h k b (Ne.symm hbk) w hw hwb
  | clear k kind =>
    cases kind with
    | university =>
      simp only [clearSelection]
      apply distinct_update h
      intro b _ w hw _
      simp [jsOrNull, truthy] at hw
    | major =>
      simp only [clearSelection]
      apply distinct_update h
      intro b hbk w hw hwb
      exact h k b (Ne.symm hbk) w hw hwb
  | reset =>
    rw [resetSelections_eq]
    exact univDistinct_init

theorem step_majorDistinct {kb : KnowledgeBase} {st st' : SelectionState}
    (hs : Step kb st st') (h : MajorDistinct st) : MajorDistinct st' := by
  cases hs with
  | select k kind v hv =>
    cases kind with
    | university =>
      simp only [selectItem]
      apply distinct_update h
      intro b _ w hw _
      simp [jsOrNull, truthy] at hw
    | major =>
      by_cases hd : (st.get k).majorDisabled
      · simp [availableFor, hd] at hv
      · have hv' : v ∈ getAvailableMajorsForChoice kb st k := by
          simpa [availableFor, hd] using hv
        have hmem := mem_getAvailableMajorsForChoice hv'
        simp only [selectItem]
        apply distinct_update h
        intro b hbk w hw hwb
        rw [jsOrNull_eq_some] at hw
        obtain ⟨hw1, _⟩ := hw
        injection hw1 with hw1
        subst hw1
        exact hmem.2.2 (mem_othersSelectedMajors.mpr ⟨b, hbk, hwb⟩)
  | clear k kind =>
    cases kind with
    | university =>
      simp only [clearSelection]
      apply distinct_update h
      intro b _ w hw _
      simp [jsOrNull, truthy] at hw
    | major =>
      simp only [clearSelection]
      apply distinct_update h
      intro b _ w hw _
      simp [jsOrNull, truthy] at hw
  | reset =>
    rw [resetSelections_eq]
    exact majorDistinct_init

theorem step_slotInv {kb : KnowledgeBase} {st st' : SelectionState}
    (hwf : "" ∉ kb.universities) (hs : Step kb st st')
    (h : ∀ k, SlotInv (st.get k)) : ∀ k, SlotInv (st'.get k) := by
  cases hs with
  | select k kind v hv =>
    cases kind with
    | university =>
      intro a
      have hmem := mem_getAvailableUniversities.mp (by simpa [availableFor] using hv)
      have hv0 : v ≠ "" := fun h0 => hwf (h0 ▸ hmem.1)
      simp only [selectItem]
      rw [get_set]
      by_cases hak : a = k
      · rw [if_pos hak]
        refine ⟨?_, ?_, ?_⟩
        · simp [truthy_some_eq, hv0]
        · simp [hv0]
        · simp
      · rw [if_neg hak]
        exact h a
    | major =>
      intro a
      by_cases hd : (st.get k).majorDisabled
      · simp [availableFor, hd] at hv
      have hv' : v ∈ getAvailableMajorsForChoice kb st k := by
        simpa [availableFor, hd] using hv
      obtain ⟨⟨u, hu, _⟩, _, _⟩ := mem_getAvailableMajorsForChoice hv'
      simp only [selectItem]
      rw [get_set]
      by_cases hak : a = k
      · rw [if_pos hak]
        refine ⟨(h k).1, (h k).2.1, fun hnone => ?_⟩
        rw [hu] at hnone
        cases hnone
      · rw [if_neg hak]
        exact h a
  | clear k kind =>
    cases kind with
    | university =>
      intro a
      simp only [clearSelection]
      rw [get_set]
      by_cases hak : a = k
      · rw [if_pos hak]
        exact ⟨rfl, by simp, fun _ => rfl⟩
      · rw [if_neg hak]
        exact h a
    | major =>
      intro a
      simp only [clearSelection]
      rw [get_set]
      by_cases hak : a = k
      · rw [if_pos hak]
        exact ⟨(h k).1, (h k).2.1, fun _ => rfl⟩
      · rw [if_neg hak]
        exact h a
  | reset =>
    rw [resetSelections_eq]
    exact slotInv_init

theorem reachable_univDistinct {kb : KnowledgeBase} {st : SelectionState}
    (h : Reachable kb st) : UnivDistinct st := by
  induction h with
  | init => exact univDistinct_init
  | step _ hs ih => exact step_univDistinct hs ih

theorem reachable_majorDistinct {kb : KnowledgeBase} {st : SelectionState}
    (h : Reachable kb st) : MajorDistinct st := by
  induction h with
  | init => exact majorDistinct_init
  | step _ hs ih => exact step_majorDistinct hs ih

theorem reachable_slotInv {kb : KnowledgeBase} {st : SelectionState}
    (hwf : "" ∉ kb.universities) (h : Reachable kb st) :
    ∀ k, SlotInv (st.get k) := by
  induction h with
  | init => exact slotInv_init
  | step _ hs ih => exact step_slotInv hwf hs ih

theorem nodup_getSelectedUniversities {st : SelectionState} (h : UnivDistinct st) :
    (getSelectedUniversities st).Nodup := by
  refine List.Nodup.filterMap ?_ keys_nodup
  intro a a' b hb hb'
  by_contra hne
  exact h a a' hne b (Option.mem_def.mp hb) (Option.mem_def.mp hb')

theorem nodup_getSelectedMajors {st : SelectionState} (h : MajorDistinct st) :
    (getSelectedMajors st).Nodup := by
  refine List.Nodup.filterMap ?_ keys_nodup
  intro a a' b hb hb'
  by_contra hne
  exact h a a' hne b (Option.mem_def.mp hb) (Option.mem_def.mp hb')

/-- `jsRound` agrees with the mathematical half-up rounding `⌊q + 1/2⌋`,
which is what JS `Math.round` computes on finite numbers. -/
theorem jsRound_eq_floor (q : ℚ) : jsRound q = ⌊q + 1 / 2⌋ := by
  have hden : ((q.den : ℚ)) ≠ 0 := by
    exact_mod_cast q.den_nz
  have key : q + 1 / 2 =
      ((2 * q.num + (q.den : ℤ) : ℤ) : ℚ) / ((2 * q.den : ℕ) : ℚ) := by
    conv_lhs => rw [← Rat.num_div_den q]
    push_cast
    field_simp
    ring
  rw [key, Rat.floor_intCast_div_natCast, jsRound]
  push_cast
  rfl

/-- A concrete knowledge base used to instantiate the reachability
theorems. -/
def kb0 : KnowledgeBase :=
  { universities := ["UI", "ITB"]
    majors := ["Informatika", "Hukum"]
    detailKeys := ["UI | Informatika", "UI | Hukum", "ITB | Informatika"] }

/-- A concrete reachable state: `choice1` has selected university `"UI"`. -/
def st1 : SelectionState := selectItem initState .choice1 .university "UI"

theorem st1_reachable : Reachable kb0 st1 :=
  Reachable.step Reachable.init
    (Step.select initState .choice1 .university "UI" (by decide))

/-! ## Claim theorems -/

/-- Claim C1: in every state reachable from the initial empty selection
store by any sequence of select (with the value drawn from the slot's
availability list — search results are a sublist of it), clear, and reset
operations, the universities selected across the three choice slots are
pairwise distinct, and so are the selected majors. -/
theorem reachable_selected_nodup (kb : KnowledgeBase) (st : SelectionState)
    (h : Reachable kb st) :
    (getSelectedUniversities st).Nodup ∧ (getSelectedMajors st).Nodup :=
  ⟨nodup_getSelectedUniversities (reachable_univDistinct h),
   nodup_getSelectedMajors (reachable_majorDistinct h)⟩

/-- Witness for C1 at a concrete knowledge base and reachable state. -/
theorem reachable_selected_nodup_witness :
    (getSelectedUniversities st1).Nodup ∧ (getSelectedMajors st1).Nodup :=
  reachable_selected_nodup kb0 st1 st1_reachable

/-- Claim C3: in every reachable state of the selection store (for a
knowledge base whose university names are non-empty strings), each slot's
major selector is enabled (`majorDisabled = false`) iff the slot's
university selector holds a non-empty (truthy) selection, and a slot whose
university selector is empty also has an empty major selection.  This
holds initially and is preserved by every select, clear and reset. -/
theorem reachable_major_enabled_iff (kb : KnowledgeBase) (st : SelectionState)
    (hwf : "" ∉ kb.universities) (h : Reachable kb st) (k : ChoiceKey) :
    ((st.get k).majorDisabled = false ↔ truthy (st.get k).univSelected = true) ∧
    (truthy (st.get k).univSelected = false → (st.get k).majorSelected = none) := by
  obtain ⟨h1, h2, h3⟩ := reachable_slotInv hwf h k
  constructor
  · rw [h1]
    cases truthy (st.get k).univSelected <;> simp
  · intro ht
    apply h3
    cases hu : (st.get k).univSelected with
    | none => rfl
    | some s =>
      rw [hu] at ht h2
      rw [truthy_some_eq] at ht
      simp at ht
      exact absurd (ht ▸ rfl) (ht ▸ h2)

/-- Witness for C3 at a concrete knowledge base and reachable state. -/
theorem reachable_major_enabled_iff_witness :
    (((st1.get .choice1).majorDisabled = false ↔
        truthy (st1.get .choice1).univSelected = true) ∧
      (truthy (st1.get .choice1).univSelected = false →
        (st1.get .choice1).majorSelected = none)) ∧
    (((st1.get .choice2).majorDisabled = false ↔
        truthy (st1.get .choice2).univSelected = true) ∧
      (truthy (st1.get .choice2).univSelected = false →
        (st1.get .choice2).majorSelected = none)) :=
  ⟨reachable_major_enabled_iff kb0 st1 (by decide) st1_reachable .choice1,
   reachable_major_enabled_iff kb0 st1 (by decide) st1_reachable .choice2⟩

/-- Claim C4: for every slot and value, selecting a university sets that
slot's university selection, clears its major selection (whatever it was),
and enables the major selector; clearing a university empties both
selections and disables the major selector. -/
theorem selectItem_clearSelection_spec (st : SelectionState) (k : ChoiceKey)
    (v : String) :
    ((selectItem st k .university v).get k).univSelected = some v ∧
    ((selectItem st k .university v).get k).majorSelected = none ∧
    ((selectItem st k .university v).get k).majorDisabled = false ∧
    ((clearSelection st k .university).get k).univSelected = none ∧
    ((clearSelection st k .university).get k).majorSelected = none ∧
    ((clearSelection st k .university).get k).majorDisabled = true := by
  simp [selectItem, clearSelection, get_set]

/-! ## C5/C6: availability and search -/

theorem sIncludesAux_iff {pat l : List Char} :
    sIncludesAux pat l = true ↔ pat <:+: l := by
  induction l with
  | nil =>
    simp [sIncludesAux, List.isEmpty_iff, List.infix_nil]
  | cons c t ih =>
    simp [sIncludesAux, List.isPrefixOf_iff_prefix, ih, List.infix_cons_iff]

/-- JS `s.includes(pat)` holds exactly when `pat` is a contiguous
substring of `s`. -/
theorem jsIncludes_iff_infix {s pat : String} :
    jsIncludes s pat = true ↔ pat.data <:+: s.data :=
  sIncludesAux_iff

theorem othersSelectedUnivs_set_self (st : SelectionState) (cur : ChoiceKey)
    (p : PairState) :
    othersSelectedUnivs (st.set cur p) cur = othersSelectedUnivs st cur := by
  unfold othersSelectedUnivs
  apply List.filterMap_congr
  intro k hk
  rw [List.mem_filter] at hk
  have hne : k ≠ cur := by simpa using hk.2
  rw [get_set, if_neg hne]

/-- The availability resolver as §4.1 of the spec words it: for a
university, all knowledge-base universities minus those selected in other
slots; for a major, empty when the slot's major selector is disabled, and
otherwise the knowledge-base majors whose `"university | major"` detail
key exists for the slot's selected university, minus majors selected in
other slots, preserving knowledge-base order. -/
def specAvailableFor (kb : KnowledgeBase) (st : SelectionState) (cur : ChoiceKey) :
    SelKind → List String
  | .university =>
      kb.universities.filter (fun u => decide (u ∉ othersSelectedUnivs st cur))
  | .major =>
      if (st.get cur).majorDisabled then []
      else
        (kb.majors.filter (fun m =>
            decide (detailKey ((st.get cur).univSelected.getD "") m ∈ kb.detailKeys))).filter
          (fun m => decide (m ∉ othersSelectedMajors st cur))

/-- Claim C5: the implementation's availability list coincides with the
spec's description of `availableFor` — for universities unconditionally,
and for majors in every state satisfying the (reachability) invariant
that an enabled major selector implies a truthy university selection.
Moreover a slot's own state never influences its own university list
(its own selection is not excluded). -/
theorem availableFor_spec (kb : KnowledgeBase) (st : SelectionState)
    (cur : ChoiceKey)
    (hinv : (st.get cur).majorDisabled = false →
      truthy (st.get cur).univSelected = true) :
    (∀ kind, availableFor kb st cur kind = specAvailableFor kb st cur kind) ∧
    (∀ p, availableFor kb (st.set cur p) cur .university =
      availableFor kb st cur .university) := by
  constructor
  · intro kind
    cases kind with
    | university => rfl
    | major =>
      by_cases hd : (st.get cur).majorDisabled
      · simp [availableFor, specAvailableFor, hd]
      · have ht := hinv (by simpa using hd)
        obtain ⟨u, hu, hu0⟩ := truthy_eq_true_iff.mp ht
        simp [availableFor, specAvailableFor, hd, getAvailableMajorsForChoice,
          hu, hu0, getMajorsForUniversity]
  · intro p
    show getAvailableUniversities kb (st.set cur p) cur =
      getAvailableUniversities kb st cur
    unfold getAvailableUniversities
    rw [othersSelectedUnivs_set_self]

/-- Witness for C5 at a concrete knowledge base and state. -/
theorem availableFor_spec_witness :
    ((∀ kind, availableFor kb0 st1 .choice1 kind =
        specAvailableFor kb0 st1 .choice1 kind) ∧
      (∀ p, availableFor kb0 (st1.set .choice1 p) .choice1 .university =
        availableFor kb0 st1 .choice1 .university)) ∧
    availableFor kb0 st1 .choice1 .major = ["Informatika", "Hukum"] ∧
    availableFor kb0 st1 .choice2 .university = ["ITB"] :=
  ⟨availableFor_spec kb0 st1 .choice1 (by decide), by decide, by decide⟩

/-- Claim C6: searching with an empty query yields an empty (hidden)
result, never the full list; a non-empty query yields exactly the
case-insensitively matching elements of the availability list in order,
capped at 12.  Consequently every search result list has length at most
12, is a sublist (order-preserving selection) of `availableFor`, and each
result contains the lowercased query as a substring of its lowercased
form. -/
theorem renderSearchResults_spec (kb : KnowledgeBase) (st : SelectionState)
    (k : ChoiceKey) (kind : SelKind) (query : String) :
    (query = "" → renderSearchResults kb st k kind query = []) ∧
    (renderSearchResults kb st k kind query).length ≤ 12 ∧
    (renderSearchResults kb st k kind query).Sublist (availableFor kb st k kind) ∧
    (∀ x ∈ renderSearchResults kb st k kind query,
      (jsToLower query).data <:+: (jsToLower x).data) ∧
    (query ≠ "" → renderSearchResults kb st k kind query =
      ((availableFor kb st k kind).filter
        (fun item => jsIncludes (jsToLower item) (jsToLower query))).take 12) := by
  by_cases hq : query = ""
  · refine ⟨fun _ => by simp [renderSearchResults, hq], ?_, ?_, ?_, fun h => absurd hq h⟩
    · simp [renderSearchResults, hq]
    · simp [renderSearchResults, hq]
    · simp [renderSearchResults, hq]
  · have he : renderSearchResults kb st k kind query =
        ((availableFor kb st k kind).filter
          (fun item => jsIncludes (jsToLower item) (jsToLower query))).take 12 := by
      simp [renderSearchResults, hq]
    refine ⟨fun h => absurd h hq, ?_, ?_, ?_, fun _ => he⟩
    · rw [he]
      exact List.length_take_le 12 _
    · rw [he]
      exact (List.take_sublist _ _).trans (List.filter_sublist _)
    · intro x hx
      rw [he] at hx
      have hx' := List.of_mem_filter ((List.take_sublist 12 _).subset hx)
      exact jsIncludes_iff_infix.mp hx'

/-- Witness for C6 at concrete inputs (hypotheses `query = ""` and
`query ≠ ""` each discharged at its own query). -/
theorem renderSearchResults_spec_witness :
    renderSearchResults kb0 st1 .choice2 .university "" = [] ∧
    renderSearchResults kb0 st1 .choice1 .major "infor" =
      ((availableFor kb0 st1 .choice1 .major).filter
        (fun item => jsIncludes (jsToLower item) (jsToLower "infor"))).take 12 ∧
    renderSearchResults kb0 st1 .choice1 .major "infor" = ["Informatika"] :=
  ⟨(renderSearchResults_spec kb0 st1 .choice2 .university "").1 rfl,
   (renderSearchResults_spec kb0 st1 .choice1 .major "infor").2.2.2.2 (by decide),
   by decide⟩

/-! ## C7/C10: the field accessor -/

theorem contains_iff_mem {l : List String} {a : String} :
    l.contains a = true ↔ a ∈ l :=
  List.elem_iff

theorem parseNum_empty : parseNum "" = none := rfl

theorem val_eq_num {form : Form} {id v : String} {q : ℚ}
    (hform : form id = some v) (hq : parseNum (jsTrim v) = some q)
    (hnum : id ∈ NUMERIC_FIELDS) :
    val form id = .num
      (let n1 := if GRADE_FIELDS.contains id then clampQ q 0 100 else q
       if id = "rank_percentile" then clampQ (jsRound n1 : ℚ) 1 100 else n1) := by
  have hraw : jsTrim v ≠ "" := by
    intro h0
    rw [h0, parseNum_empty] at hq
    cases hq
  unfold val
  rw [hform]
  simp only [if_neg hraw, hq, if_pos (contains_iff_mem.mpr hnum)]

/-- Claim C7: the field accessor is a pure function of the form snapshot
(it is a Lean function of `form`; no state is written); an empty or
whitespace-only raw value reads as absent; a numeric value on a grade
field is clamped to `[0,100]`; a numeric value on the rank-percentile
field is rounded to an integer and clamped to `[1,100]`; in particular
`"105"` on a grade field reads 100, `"-5"` reads 0, and `"150"` / `"0.4"`
on rank-percentile read 100 / 1. -/
theorem val_accessor_spec :
    (∀ (form : Form) (id v : String), form id = some v → jsTrim v = "" →
      val form id = .undef) ∧
    (∀ (form : Form) (id v : String) (q : ℚ), id ∈ GRADE_FIELDS →
      form id = some v → parseNum (jsTrim v) = some q →
      val form id = .num (clampQ q 0 100)) ∧
    (∀ (form : Form) (v : String) (q : ℚ), form "rank_percentile" = some v →
      parseNum (jsTrim v) = some q →
      val form "rank_percentile" = .num (clampQ (jsRound q : ℚ) 1 100)) ∧
    val (fun _ => some "105") "math" = .num 100 ∧
    val (fun _ => some "-5") "math" = .num 0 ∧
    val (fun _ => some "150") "rank_percentile" = .num 100 ∧
    val (fun _ => some "0.4") "rank_percentile" = .num 1 := by
  refine ⟨?_, ?_, ?_, by decide, by decide, by decide, by decide⟩
  · intro form id v hform hempty
    unfold val
    rw [hform]
    simp [hempty]
  · intro form id v q hid hform hq
    have hrank : id ≠ "rank_percentile" := by
      intro h0
      exact (by decide : "rank_percentile" ∉ GRADE_FIELDS) (h0 ▸ hid)
    have h1 := val_eq_num hform hq (by simp [NUMERIC_FIELDS, hid])
    rw [h1]
    simp [if_neg hrank, if_pos (contains_iff_mem.mpr hid)]
    exact fun h => absurd hid h
  · intro form v q hform hq
    have h1 := val_eq_num hform hq (by simp [NUMERIC_FIELDS])
    rw [h1]
    simp only [if_pos rfl]
    rw [if_neg (by decide : ¬GRADE_FIELDS.contains "rank_percentile" = true)]
    simp

/-- Claim C10: a non-empty raw value that does not parse as a number is
returned as the trimmed raw string (not absent, not clamped) on every
field — numeric fields included — and the "at least one of S1–S5 is a
present number" rule counts only values of number type, so such string
values never satisfy it. -/
theorem val_non_numeric_spec :
    (∀ (form : Form) (id v : String), form id = some v → jsTrim v ≠ "" →
      parseNum (jsTrim v) = none → val form id = .str (jsTrim v)) ∧
    (∀ form : Form, atLeastOneGradeFilled form = true ↔
      ∃ k ∈ GRADE_FIELDS.take 5, (val form k).isNum = true) ∧
    (∀ s, JsValue.isNum (.str s) = false) ∧
    JsValue.isNum .undef = false := by
  refine ⟨?_, ?_, fun _ => rfl, rfl⟩
  · intro form id v hform hraw hq
    unfold val
    rw [hform]
    simp only [if_neg hraw, hq]
  · intro form
    simp [atLeastOneGradeFilled, List.any_eq_true]

/-- Witness for C7, discharging each hypothesis at concrete inputs. -/
theorem val_accessor_spec_witness :
    val (fun _ => some "   ") "s1" = .undef ∧
    val (fun _ => some "87") "s2" = .num (clampQ 87 0 100) ∧
    val (fun _ => some "33") "rank_percentile" = .num (clampQ (jsRound 33 : ℚ) 1 100) :=
  ⟨val_accessor_spec.1 (fun _ => some "   ") "s1" "   " rfl (by decide),
   val_accessor_spec.2.1 (fun _ => some "87") "s2" "87" 87 (by decide) rfl (by decide),
   val_accessor_spec.2.2.1 (fun _ => some "33") "33" 33 rfl (by decide)⟩

/-- Witness for C10: a non-numeric entry reads back as its trimmed string
and does not satisfy the S1–S5 rule. -/
theorem val_non_numeric_spec_witness :
    val (fun _ => some " abc ") "math" = .str (jsTrim " abc ") ∧
    atLeastOneGradeFilled (fun _ => some " abc ") = false :=
  ⟨val_non_numeric_spec.1 (fun _ => some " abc ") "math" " abc " rfl
      (by decide) (by decide),
   by
    by_contra hb
    rw [Bool.not_eq_false] at hb
    have h2 := (val_non_numeric_spec.2.1 (fun _ => some " abc ")).mp hb
    exact (by decide : ¬∃ k ∈ List.take 5 GRADE_FIELDS,
      (val (fun _ => some " abc ") k).isNum = true) h2⟩

/-! ## C8: payload assembly -/

theorem mem_getSelectedUniversities_ne {st : SelectionState} {x : String}
    (hx : x ∈ getSelectedUniversities st) : x ≠ "" := by
  simp only [getSelectedUniversities, List.mem_filterMap] at hx
  obtain ⟨k, _, hk⟩ := hx
  exact (jsOrNull_eq_some.mp hk).2

theorem mem_getSelectedMajors_ne {st : SelectionState} {x : String}
    (hx : x ∈ getSelectedMajors st) : x ≠ "" := by
  simp only [getSelectedMajors, List.mem_filterMap] at hx
  obtain ⟨k, _, hk⟩ := hx
  exact (jsOrNull_eq_some.mp hk).2

theorem headOrUnknown_eq {l : List String} (h : ∀ x ∈ l, x ≠ "") :
    headOrUnknown l = l.headD "Unknown" := by
  cases l with
  | nil => rfl
  | cons a t =>
    have ha : a ≠ "" := h a (by simp)
    have he : a.isEmpty = false :=
      Bool.eq_false_iff.mpr (fun hc => ha ((String.isEmpty_iff a).mp hc))
    simp [headOrUnknown, he]

/-- The positional `target_university_i` field of the payload for slot
`i`. -/
def payloadUnivAt (p : Payload) : ChoiceKey → Option String
  | .choice1 => p.target_university_1
  | .choice2 => p.target_university_2
  | .choice3 => p.target_university_3

/-- The positional `target_major_i` field of the payload for slot `i`. -/
def payloadMajorAt (p : Payload) : ChoiceKey → Option String
  | .choice1 => p.target_major_1
  | .choice2 => p.target_major_2
  | .choice3 => p.target_major_3

/-- Claim C8: the assembled payload lists the selected universities in
slot order omitting empty slots (and agrees with the three positional
fields), the singular `target_university`/`target_major` are the first
populated slot's values or the literal `"Unknown"`, each positional field
is the slot's selection or null, `rank_percentile` defaults to 100 when
the field reads absent, and with only choice2 filled the payload has
`target_university` = that university, `target_university_1` = null,
`target_university_2` = it, and a one-element `target_universities`. -/
theorem collectPayload_spec (fm : FormModel) :
    ((collectPayload fm).target_universities =
      [(collectPayload fm).target_university_1,
       (collectPayload fm).target_university_2,
       (collectPayload fm).target_university_3].filterMap id) ∧
    ((collectPayload fm).target_majors =
      [(collectPayload fm).target_major_1,
       (collectPayload fm).target_major_2,
       (collectPayload fm).target_major_3].filterMap id) ∧
    ((collectPayload fm).target_university =
      (collectPayload fm).target_universities.headD "Unknown") ∧
    ((collectPayload fm).target_major =
      (collectPayload fm).target_majors.headD "Unknown") ∧
    (∀ k, (fm.sel.get k).univSelected ≠ some "" →
      payloadUnivAt (collectPayload fm) k = (fm.sel.get k).univSelected) ∧
    (∀ k, (fm.sel.get k).majorSelected ≠ some "" →
      payloadMajorAt (collectPayload fm) k = (fm.sel.get k).majorSelected) ∧
    (val fm.form "rank_percentile" = .undef →
      (collectPayload fm).rank_percentile = .num 100) ∧
    (∀ u : String, u ≠ "" →
      (collectPayload ⟨fm.form, ⟨initPair, ⟨some u, none, false⟩, initPair⟩⟩).target_university = u ∧
      (collectPayload ⟨fm.form, ⟨initPair, ⟨some u, none, false⟩, initPair⟩⟩).target_university_1 = none ∧
      (collectPayload ⟨fm.form, ⟨initPair, ⟨some u, none, false⟩, initPair⟩⟩).target_university_2 = some u ∧
      (collectPayload ⟨fm.form, ⟨initPair, ⟨some u, none, false⟩, initPair⟩⟩).target_universities = [u] ∧
      (collectPayload ⟨fm.form, ⟨initPair, ⟨some u, none, false⟩, initPair⟩⟩).target_major = "Unknown") := by
  refine ⟨?_, ?_, ?_, ?_, ?_, ?_, ?_, ?_⟩
  · simp only [collectPayload, getSelectedUniversities, keys]
    cases h1 : jsOrNull (fm.sel.get .choice1).univSelected <;>
      cases h2 : jsOrNull (fm.sel.get .choice2).univSelected <;>
      cases h3 : jsOrNull (fm.sel.get .choice3).univSelected <;>
      simp_all [SelectionState.get, List.filterMap_cons]
  · simp only [collectPayload, getSelectedMajors, keys]
    cases h1 : jsOrNull (fm.sel.get .choice1).majorSelected <;>
      cases h2 : jsOrNull (fm.sel.get .choice2).majorSelected <;>
      cases h3 : jsOrNull (fm.sel.get .choice3).majorSelected <;>
      simp_all [SelectionState.get, List.filterMap_cons]
  · exact headOrUnknown_eq (fun x hx => mem_getSelectedUniversities_ne hx)
  · exact headOrUnknown_eq (fun x hx => mem_getSelectedMajors_ne hx)
  · intro k hk
    cases hu : (fm.sel.get k).univSelected with
    | none =>
      cases k <;> simp_all [payloadUnivAt, collectPayload, SelectionState.get,
        jsOrNull, truthy]
    | some s =>
      have hs : s ≠ "" := fun h0 => hk (h0 ▸ hu)
      have : jsOrNull (some s) = some s := jsOrNull_eq_some.mpr ⟨rfl, hs⟩
      cases k <;> simp_all [payloadUnivAt, collectPayload, SelectionState.get]
  · intro k hk
    cases hu : (fm.sel.get k).majorSelected with
    | none =>
      cases k <;> simp_all [payloadMajorAt, collectPayload, SelectionState.get,
        jsOrNull, truthy]
    | some s =>
      have hs : s ≠ "" := fun h0 => hk (h0 ▸ hu)
      have : jsOrNull (some s) = some s := jsOrNull_eq_some.mpr ⟨rfl, hs⟩
      cases k <;> simp_all [payloadMajorAt, collectPayload, SelectionState.get]
  · intro h
    simp [collectPayload, h]
  · intro u hu
    have ht : jsOrNull (some u) = some u := jsOrNull_eq_some.mpr ⟨rfl, hu⟩
    have he : u.isEmpty = false :=
      Bool.eq_false_iff.mpr (fun hc => hu ((String.isEmpty_iff u).mp hc))
    refine ⟨?_, ?_, ?_, ?_, ?_⟩ <;>
      simp [collectPayload, getSelectedUniversities, getSelectedMajors, keys,
        SelectionState.get, initPair, ht, jsOrNull, truthy, headOrUnknown, he]

/-- Witness for C8 at a concrete page state. -/
theorem collectPayload_spec_witness :
    (collectPayload ⟨fun _ => none, ⟨initPair, ⟨some "ITB", none, false⟩, initPair⟩⟩).target_university = "ITB" ∧
    (collectPayload ⟨fun _ => none, ⟨initPair, ⟨some "ITB", none, false⟩, initPair⟩⟩).target_university_1 = none ∧
    (collectPayload ⟨fun _ => none, ⟨initPair, ⟨some "ITB", none, false⟩, initPair⟩⟩).target_university_2 = some "ITB" ∧
    (collectPayload ⟨fun _ => none, ⟨initPair, ⟨some "ITB", none, false⟩, initPair⟩⟩).target_universities = ["ITB"] ∧
    (collectPayload ⟨fun _ => none, ⟨initPair, ⟨some "ITB", none, false⟩, initPair⟩⟩).target_major = "Unknown" :=
  (collectPayload_spec ⟨fun _ => none, initState⟩).2.2.2.2.2.2.2 "ITB" (by decide)

/-! ## C2/C9: validation and the predict handler -/

theorem mem_ite_list {c : Prop} [Decidable c] {α : Type} {x : α} {l : List α} :
    x ∈ (if c then l else []) ↔ c ∧ x ∈ l := by
  split <;> simp_all

theorem not_mem_slotPairIssue {st : SelectionState} {m : String}
    (hm : m.data.head? ≠ some 'P') (k : ChoiceKey) : m ∉ slotPairIssue st k := by
  by_cases hc : (truthy (st.get k).univSelected &&
      !truthy (st.get k).majorSelected) = true
  · rw [slotPairIssue]
    simp only [hc, if_true, List.mem_singleton]
    intro hmem
    apply hm
    rw [hmem]
    unfold missingMajorMsg
    repeat rw [String.data_append]
    rfl
  · rw [slotPairIssue]
    simp [hc]

/-- A selection store with one fully selected slot. -/
def selOneFull : SelectionState :=
  ⟨⟨some "UI", some "Informatika", false⟩, initPair, initPair⟩

/-- A saintek form whose math grade is the (perfectly valid) number 0. -/
def formMathZero : Form := fun id =>
  if id = "program" then some "saintek"
  else if id = "math" then some "0"
  else if id = "s1" then some "80"
  else none

/-- A saintek form with no math/physics/chemistry/biology input at all. -/
def formNoScience : Form := fun id =>
  if id = "program" then some "saintek"
  else if id = "s1" then some "80"
  else none

/-- Counterexample to C2 as stated: with program saintek, a major
selected, and math grade `"0"`, the math grade *is* a present number
(`val` yields the number 0), yet the math advisory issue is reported —
the code tests JS truthiness of the read value, not presence of a
number. -/
theorem saintek_advisory_counterexample :
    val formMathZero "program" = .str "saintek" ∧
    0 < (getSelectedMajors selOneFull).length ∧
    (val formMathZero "math").isNum = true ∧
    mathMsg ∈ validateForm ⟨formMathZero, selOneFull⟩ := by
  refine ⟨by decide, by decide, by decide, ?_⟩
  decide

/-- Claim C2 (amended): with program saintek and at least one selected
major, the math advisory issue is reported iff the *read value* of the
math field is JS-falsy (absent, or the number 0 — a non-empty
non-numeric string is truthy and suppresses it), and the science
advisory issue is reported iff the read values of physics, chemistry and
biology are all JS-falsy; a state with a major selected and no
math/physics/chemistry/biology input yields exactly these two advisory
issues. -/
theorem saintek_advisory_amended (fm : FormModel)
    (hp : val fm.form "program" = .str "saintek")
    (hm : (getSelectedMajors fm.sel).length > 0) :
    (mathMsg ∈ validateForm fm ↔ (val fm.form "math").truthyVal = false) ∧
    (scienceMsg ∈ validateForm fm ↔
      ((val fm.form "physics").truthyVal = false ∧
        (val fm.form "chemistry").truthyVal = false ∧
        (val fm.form "biology").truthyVal = false)) ∧
    validateForm ⟨formNoScience, selOneFull⟩ = [mathMsg, scienceMsg] := by
  have hso : val fm.form "program" ≠ JsValue.str "soshum" := by
    rw [hp]
    decide
  refine ⟨?_, ?_, by decide⟩
  · simp only [validateForm, List.mem_append, mem_ite_list, List.mem_flatten,
      List.mem_map, List.mem_singleton]
    constructor
    · rintro (((((h | h) | h) | h) | h) | h)
      · exact absurd h.2 (by decide)
      · exact absurd h.2 (by decide)
      · exact absurd h.2 (by decide)
      · obtain ⟨l, ⟨k, _, hl⟩, hml⟩ := h
        exact absurd (hl ▸ hml) (not_mem_slotPairIssue (by decide) k)
      · rcases h.2 with h2 | h2
        · simpa using h2.1
        · exact absurd h2.2 (by decide)
      · exact absurd h.2.2 (by decide)
    · intro h
      refine Or.inl (Or.inr ⟨?_, Or.inl ⟨by simpa using h, trivial⟩⟩)
      simp [hp, hm]
  · simp only [validateForm, List.mem_append, mem_ite_list, List.mem_flatten,
      List.mem_map, List.mem_singleton]
    constructor
    · rintro (((((h | h) | h) | h) | h) | h)
      · exact absurd h.2 (by decide)
      · exact absurd h.2 (by decide)
      · exact absurd h.2 (by decide)
      · obtain ⟨l, ⟨k, _, hl⟩, hml⟩ := h
        exact absurd (hl ▸ hml) (not_mem_slotPairIssue (by decide) k)
      · rcases h.2 with h2 | h2
        · exact absurd h2.2 (by decide)
        · have h3 := h2.1
          simp only [Bool.and_eq_true, Bool.not_eq_true'] at h3
          exact ⟨h3.1.1, h3.1.2, h3.2⟩
      · exact absurd h.2.2 (by decide)
    · intro ⟨h1, h2, h3⟩
      refine Or.inl (Or.inr ⟨?_, Or.inr ⟨?_, trivial⟩⟩)
      · simp [hp, hm]
      · simp [h1, h2, h3]

/-- Witness for the amended C2 at a concrete page state (no science
grades entered). -/
theorem saintek_advisory_amended_witness :
    (mathMsg ∈ validateForm ⟨formNoScience, selOneFull⟩ ↔
      (val formNoScience "math").truthyVal = false) ∧
    (scienceMsg ∈ validateForm ⟨formNoScience, selOneFull⟩ ↔
      ((val formNoScience "physics").truthyVal = false ∧
        (val formNoScience "chemistry").truthyVal = false ∧
        (val formNoScience "biology").truthyVal = false)) :=
  ⟨(saintek_advisory_amended ⟨formNoScience, selOneFull⟩ (by decide) (by decide)).1,
   (saintek_advisory_amended ⟨formNoScience, selOneFull⟩ (by decide) (by decide)).2.1⟩

/-- Claim C9: when validation returns a non-empty issue list, clicking
predict yields the blocked outcome carrying the *entire* issue list
(rendered via `renderResult({error: issues})` as a list), issues no
request to `/api/predict` or `/api/recommend` (the handler returns before
any fetch; `PredictOutcome.blocked` carries no payload), and returns the
page state unchanged.  The rules are evaluated independently with no
short-circuit: each violated rule contributes its issue to the returned
list regardless of the other rules. -/
theorem predict_blocked_spec :
    (∀ fm : FormModel, validateForm fm ≠ [] →
      predictClick fm = (.blocked (validateForm fm), fm)) ∧
    (∀ fm : FormModel, atLeastOneGradeFilled fm.form = false →
      gradeMsg ∈ validateForm fm) ∧
    (∀ fm : FormModel, getSelectedUniversities fm.sel = [] →
      univMsg ∈ validateForm fm) ∧
    (∀ fm : FormModel, getSelectedMajors fm.sel = [] →
      majorMsg ∈ validateForm fm) ∧
    (∀ (fm : FormModel) (k : ChoiceKey),
      truthy (fm.sel.get k).univSelected = true →
      truthy (fm.sel.get k).majorSelected = false →
      missingMajorMsg k ((fm.sel.get k).univSelected.getD "") ∈ validateForm fm) ∧
    (∀ fm : FormModel, val fm.form "program" = .str "saintek" →
      (getSelectedMajors fm.sel).length > 0 →
      (val fm.form "math").truthyVal = false → mathMsg ∈ validateForm fm) ∧
    (∀ fm : FormModel, val fm.form "program" = .str "saintek" →
      (getSelectedMajors fm.sel).length > 0 →
      (val fm.form "physics").truthyVal = false →
      (val fm.form "chemistry").truthyVal = false →
      (val fm.form "biology").truthyVal = false →
      scienceMsg ∈ validateForm fm) ∧
    (∀ fm : FormModel, val fm.form "program" = .str "soshum" →
      (getSelectedMajors fm.sel).length > 0 →
      (val fm.form "language").truthyVal = false →
      languageMsg ∈ validateForm fm) := by
  refine ⟨?_, ?_, ?_, ?_, ?_, ?_, ?_, ?_⟩
  · intro fm h
    rw [predictClick]
    rw [if_pos]
    simpa [List.length_pos] using h
  · intro fm h
    simp only [validateForm, List.mem_append]
    refine Or.inl (Or.inl (Or.inl (Or.inl (Or.inl ?_))))
    simp [h]
  · intro fm h
    simp only [validateForm, List.mem_append]
    refine Or.inl (Or.inl (Or.inl (Or.inl (Or.inr ?_))))
    simp [h]
  · intro fm h
    simp only [validateForm, List.mem_append]
    refine Or.inl (Or.inl (Or.inl (Or.inr ?_)))
    simp [h]
  · intro fm k hu hm
    simp only [validateForm, List.mem_append]
    refine Or.inl (Or.inl (Or.inr ?_))
    rw [List.mem_flatten]
    refine ⟨slotPairIssue fm.sel k, List.mem_map_of_mem _ (mem_keys k), ?_⟩
    rw [slotPairIssue]
    simp [hu, hm]
  · intro fm hp hm hmath
    simp only [validateForm, List.mem_append]
    refine Or.inl (Or.inr ?_)
    simp [hp, hm, hmath]
  · intro fm hp hm h1 h2 h3
    simp only [validateForm, List.mem_append]
    refine Or.inl (Or.inr ?_)
    simp [hp, hm, h1, h2, h3]
  · intro fm hp hm hlang
    simp only [validateForm, List.mem_append]
    refine Or.inr ?_
    simp [hp, hm, hlang]

/-- Witness for C9: the empty page blocks with its non-empty issue list.
-/
theorem predict_blocked_spec_witness :
    predictClick ⟨fun _ => none, initState⟩ =
      (.blocked (validateForm ⟨fun _ => none, initState⟩),
        ⟨fun _ => none, initState⟩) ∧
    gradeMsg ∈ validateForm ⟨fun _ => none, initState⟩ ∧
    univMsg ∈ validateForm ⟨fun _ => none, initState⟩ ∧
    majorMsg ∈ validateForm ⟨fun _ => none, initState⟩ :=
  ⟨predict_blocked_spec.1 ⟨fun _ => none, initState⟩ (by decide),
   predict_blocked_spec.2.1 ⟨fun _ => none, initState⟩ (by decide),
   predict_blocked_spec.2.2.1 ⟨fun _ => none, initState⟩ (by decide),
   predict_blocked_spec.2.2.2.1 ⟨fun _ => none, initState⟩ (by decide)⟩

end UniMatch
